import Mathlib

/-
Verification of the daily-task-organizer frontend against its specification.

The development shallowly embeds the parts of the code the claims are about:

  src/todo_frontend/src/hooks/useTodos.js   (namespace Todos.Hook)
    normalizeTodo, filterAndSearch, isNetworkOrServerError, the init effect,
    withOptimistic, addTodo, toggleTodo, updateTodo, deleteTodo, clearCompleted
  src/todo_frontend/src/services/api.js     (namespace Todos.Api)
    throwForResponse, requestJson, listTodos, createTodo, updateTodo, deleteTodo

Modelling conventions:
  - JS objects with optional keys become structures with Option fields; a key
    that is absent or nullish is modelled as none, a present non-nullish value
    as some v.  Ids are strings (a falsy id is the empty string).
  - Asynchronous calls become explicit outcome parameters: a backend call is a
    value of type Except ApiError _, and the sequential await-based control
    flow of the hook becomes a pure state transition on SyncState.
  - fetch responses are modelled by FetchResult: either a response that
    arrived with a numeric status, or a transport-level failure (network,
    CORS, abort) that carries no status.  Response bodies are elided: the
    claims under study are about the error taxonomy, not payload decoding.
  - generateId() is modelled by explicit fresh-id parameters.
-/

namespace Todos

/-- A task as held in the canonical in-memory list: id, title, completed. -/
structure Task where
  id : String
  title : String
  completed : Bool
deriving DecidableEq, Repr

/-- A raw todo-like JS object, as loaded from storage or decoded from the
remote API.  Field rid models key id, rid2 models key _id, rtitle models key
title, rcompleted models key completed; none means the key is absent or
nullish. -/
structure RawTodo where
  rid : Option String := none
  rid2 : Option String := none
  rtitle : Option String := none
  rcompleted : Option Bool := none
deriving DecidableEq, Repr

/-- Model of JS String.prototype.trim over the character list: drop leading
and trailing whitespace. -/
def jsTrim (s : String) : String :=
  ⟨((s.toList.dropWhile Char.isWhitespace).reverse.dropWhile Char.isWhitespace).reverse⟩

/-- Model of JS String.prototype.toLowerCase over the character list. -/
def jsToLower (s : String) : String :=
  ⟨s.toList.map Char.toLower⟩

/-- A string has no leading or trailing whitespace: its first and last
characters, when they exist, are not whitespace. -/
def noEdgeWhitespace (s : String) : Bool :=
  (s.toList.head?.all fun c => !c.isWhitespace) &&
    (s.toList.getLast?.all fun c => !c.isWhitespace)

namespace Hook

/-- Embedding of normalizeTodo (useTodos.js, lines 51-61).  The source builds
an object literal with fields id, a trimmed title and a boolean completed, and
then spreads the original object t last; the spread overrides each computed
field for every key t actually has.  fresh stands for the generateId() call
made when the object has neither id nor _id. -/
def normalizeTodo (fresh : String) (t : RawTodo) : Task :=
  let id0 := (t.rid.orElse fun _ => t.rid2).getD fresh
  let computedTitle := jsTrim (t.rtitle.getD "")
  let computedCompleted := t.rcompleted.getD false
  { id := t.rid.getD id0
    title := t.rtitle.getD computedTitle
    completed := t.rcompleted.getD computedCompleted }

/-- Wrapper for the null guard of normalizeTodo: a non-object input yields
null, modelled as none. -/
def normalizeTodoOpt (fresh : String) : Option RawTodo → Option Task
  | none => none
  | some t => some (normalizeTodo fresh t)

/-- List normalization as done at every load site:
list.map(normalizeTodo).filter(Boolean).  The fresh-id supply is indexed by
position in the list. -/
def normalizeList (fresh : Nat → String) (l : List (Option RawTodo)) : List Task :=
  (l.enum.map fun p => normalizeTodoOpt (fresh p.1) p.2).reduceOption

/-- The completion-status part of the view predicate (useTodos.js line 70):
the filter value is a string, all and any unrecognized value pass
everything. -/
def matchesFilter (filter : String) (t : Task) : Bool :=
  if filter = "all" then true
  else if filter = "active" then !t.completed
  else if filter = "completed" then t.completed
  else true

/-- Substring test on character lists, the semantics of the JS
String.prototype.includes call used for search. -/
def listIncludes : List Char → List Char → Bool
  | [], needle => needle.isEmpty
  | c :: rest, needle => needle.isPrefixOf (c :: rest) || listIncludes rest needle

/-- Substring test on strings: does hay contain needle. -/
def jsIncludes (hay needle : String) : Bool :=
  listIncludes hay.toList needle.toList

/-- The search part of the view predicate (useTodos.js line 71), applied to
the already trimmed-and-lowercased query q: a zero-length q passes
everything, otherwise the lowercased title must contain q. -/
def matchesSearch (q : String) (t : Task) : Bool :=
  if q.length = 0 then true else jsIncludes (jsToLower t.title) q

/-- Embedding of filterAndSearch (useTodos.js, lines 66-74): the query is the
search text trimmed and lowercased, and each kept task satisfies both the
filter condition and the search condition. -/
def filterAndSearch (tasks : List Task) (filter search : String) : List Task :=
  let q := jsToLower (jsTrim search)
  tasks.filter fun t => matchesFilter filter t && matchesSearch q t

/-- Stated from the words of the specification, for the refinement comparison
in claim C8: the search condition is a case-insensitive substring match of the
search text itself against the title, with the empty search passing
everything.  This is NOT the code; the code trims the search text first. -/
def matchesSearchSpec (search : String) (t : Task) : Bool :=
  if search = "" then true else jsIncludes (jsToLower t.title) (jsToLower search)

end Hook

/-- An error value as raised by the Remote Adapter and inspected by the hook:
status models the numeric status property when present (absent for
transport-level failures), isNetworkOrServerError models the boolean flag of
the same name (false when the property is absent). -/
structure ApiError where
  status : Option Nat := none
  isNetworkOrServerError : Bool := false
deriving DecidableEq, Repr

/-- Outcome of one fetch call: a response that arrived with a numeric status,
or a transport-level failure with no usable status. -/
inductive FetchResult where
  | resp (status : Nat)
  | netFail
deriving DecidableEq, Repr

/-- An error is rejected when it is a definite server answer: it carries a
status below 500 and is not flagged as a network or server failure.  This is
the shape every non-transient adapter error has. -/
def ApiError.rejected (e : ApiError) : Prop :=
  e.isNetworkOrServerError = false ∧ ∃ st, e.status = some st ∧ st < 500

namespace Api

/-- The resp.ok test of fetch: status in the 2xx range. -/
def respOk (s : Nat) : Bool := decide (200 ≤ s) && decide (s ≤ 299)

/-- Embedding of throwForResponse (api.js, lines 71-84): the error carries the
response status, and the transient flag is set exactly when the status is in
the 5xx range. -/
def throwForResponse (s : Nat) : ApiError :=
  { status := some s
    isNetworkOrServerError := decide (500 ≤ s) && decide (s ≤ 599) }

/-- Embedding of requestJson (api.js, lines 87-115): a non-ok response raises
the throwForResponse error (its status is a number, so the catch clause leaves
it unchanged); a transport-level failure raises an error with no status, which
the catch clause flags as a network problem. -/
def requestJson : FetchResult → Except ApiError Unit
  | .resp s => if respOk s then .ok () else .error (throwForResponse s)
  | .netFail => .error { status := none, isNetworkOrServerError := true }

/-- Embedding of listTodos (api.js): delegates to requestJson. -/
def listTodos (r : FetchResult) : Except ApiError Unit := requestJson r

/-- Embedding of createTodo (api.js): delegates to requestJson. -/
def createTodo (r : FetchResult) : Except ApiError Unit := requestJson r

/-- Embedding of updateTodo (api.js, lines 144-160): a falsy id raises an
error with status 400 before any request is made (the result does not depend
on the fetch outcome r); otherwise delegates to requestJson. -/
def updateTodo (id : String) (r : FetchResult) : Except ApiError Unit :=
  if id = "" then .error { status := some 400 } else requestJson r

/-- Embedding of deleteTodo (api.js, lines 163-176): same guard as
updateTodo. -/
def deleteTodo (id : String) (r : FetchResult) : Except ApiError Unit :=
  if id = "" then .error { status := some 400 } else requestJson r

end Api

namespace Hook

/-- Embedding of the isNetworkOrServerError helper of the hook (useTodos.js,
lines 44-46): the flag is set, or the status is a number at least 500. -/
def isNetworkOrServerError (e : ApiError) : Bool :=
  e.isNetworkOrServerError ||
    (match e.status with
     | some s => decide (500 ≤ s)
     | none => false)

/-- Backend mode of the hook: loc models the string value local, api the
string value api. -/
inductive Mode where
  | loc
  | api
deriving DecidableEq, Repr

/-- The state owned by the Synchronization Core: the backend mode and the
canonical task list. -/
structure SyncState where
  mode : Mode
  tasks : List Task
deriving DecidableEq, Repr

/-- Embedding of withOptimistic (useTodos.js, lines 175-210).  In local mode
the local change is applied and that is all.  In api mode the local change is
applied optimistically; the backend call outcome is the commit parameter: on
success the success continuation runs over the current (optimistic) list (the
create splice; the identity for the other operations), on failure the
snapshot is restored and, when the error is a network or server failure, the
mode is demoted to local.  Every call site passes the snapshot-restoring
rollback, so the rollback is the snapshot itself. -/
def withOptimistic (s : SyncState) (applyLocalChange : List Task → List Task)
    (commit : Except ApiError (List Task → List Task)) : SyncState :=
  match s.mode with
  | .loc => { s with tasks := applyLocalChange s.tasks }
  | .api =>
    match commit with
    | .ok onSuccess => { s with tasks := onSuccess (applyLocalChange s.tasks) }
    | .error err =>
      { mode := if isNetworkOrServerError err then .loc else .api
        tasks := s.tasks }

/-- The replacement done by addTodo on create success (useTodos.js, lines
226-231): when the server answer normalizes to a task, every list entry whose
id equals the placeholder id is replaced by it; a nullish answer changes
nothing. -/
def spliceCreated (placeholderId : String) (created : Option Task)
    (prev : List Task) : List Task :=
  match created with
  | none => prev
  | some c => prev.map fun t => if t.id = placeholderId then c else t

/-- Embedding of addTodo (useTodos.js, lines 213-238).  A title that trims to
empty is a no-op.  Otherwise the new item is normalizeTodo of the literal
object with the fresh id, the trimmed title and completed false, prepended
optimistically; in api mode the create outcome carries the decoded server
answer, and on success the placeholder is replaced through spliceCreated
(fresh2 models the generateId() call inside that normalization). -/
def addTodo (s : SyncState) (title : String) (fresh fresh2 : String)
    (createResult : Except ApiError (Option RawTodo)) : SyncState :=
  let trimmed := jsTrim title
  if trimmed = "" then s
  else
    let newItem := normalizeTodo fresh
      { rid := some fresh, rtitle := some trimmed, rcompleted := some false }
    withOptimistic s (fun prev => newItem :: prev)
      (createResult.map fun created =>
        spliceCreated newItem.id (normalizeTodoOpt fresh2 created))

/-- Embedding of toggleTodo (useTodos.js, lines 241-259): a falsy id or an id
with no matching task is a no-op; otherwise every entry with that id gets the
flipped completed value of the first match, and the api success path changes
nothing further. -/
def toggleTodo (s : SyncState) (id : String)
    (updateResult : Except ApiError Unit) : SyncState :=
  if id = "" then s
  else
    match s.tasks.find? fun t => t.id = id with
    | none => s
    | some target =>
      let nextCompleted := !target.completed
      withOptimistic s
        (fun prev => prev.map fun t =>
          if t.id = id then { t with completed := nextCompleted } else t)
        (updateResult.map fun _ prev => prev)

/-- The fields argument of updateTodo, restricted to the keys of the task
shape: a key that the JS updates object does not have is none.  uid models the
key id, utitle the key title, ucompleted the key completed. -/
structure Updates where
  uid : Option String := none
  utitle : Option String := none
  ucompleted : Option Bool := none
deriving DecidableEq, Repr

/-- The object spread of the safe updates over an existing task: every key the
updates object has overrides the task field. -/
def applyUpdates (u : Updates) (t : Task) : Task :=
  { id := u.uid.getD t.id
    title := u.utitle.getD t.title
    completed := u.ucompleted.getD t.completed }

/-- Embedding of updateTodo (useTodos.js, lines 262-281): a falsy id or a
missing updates object is a no-op; otherwise the updates with a trimmed title
(when the title key is a string) are spread over every entry with that id, and
the api success path changes nothing further. -/
def updateTodo (s : SyncState) (id : String) (updates : Option Updates)
    (updateResult : Except ApiError Unit) : SyncState :=
  if id = "" then s
  else
    match updates with
    | none => s
    | some u =>
      let safeUpdates : Updates := { u with utitle := u.utitle.map jsTrim }
      withOptimistic s
        (fun prev => prev.map fun t =>
          if t.id = id then applyUpdates safeUpdates t else t)
        (updateResult.map fun _ prev => prev)

/-- Embedding of deleteTodo (useTodos.js, lines 284-299): a falsy id is a
no-op; otherwise every entry with that id is removed, and the api success path
changes nothing further. -/
def deleteTodo (s : SyncState) (id : String)
    (deleteResult : Except ApiError Unit) : SyncState :=
  if id = "" then s
  else
    withOptimistic s
      (fun prev => prev.filter fun t => !(t.id = id : Bool))
      (deleteResult.map fun _ prev => prev)

/-- Embedding of clearCompleted (useTodos.js, lines 302-316): a no-op when no
task is completed; otherwise the completed tasks are removed in one optimistic
step.  The commit awaits Promise.allSettled over the per-id deletes, which
never rejects, so the commit outcome is always a success that changes nothing
further: individual delete failures cannot trigger the rollback path. -/
def clearCompleted (s : SyncState) : SyncState :=
  let completedIds := (s.tasks.filter fun t => t.completed).map Task.id
  if completedIds.isEmpty then s
  else withOptimistic s (fun prev => prev.filter fun t => !t.completed)
    (.ok fun prev => prev)

/-- Embedding of the init effect of the hook (useTodos.js, lines 122-162),
together with the initial state of the api branch (an empty list).  In local
mode the normalized storage contents are installed.  In api mode the list call
is attempted: on success the normalized results are installed when the decoded
payload is an array (listPayload = some l), else an empty list; on a network
or server failure the mode is demoted to local and the normalized storage
contents are installed; on any other failure the mode stays api and the list
stays empty. -/
def initTodos (mode : Mode)
    (listResult : Except ApiError (Option (List (Option RawTodo))))
    (localRaw : List (Option RawTodo)) (fresh : Nat → String) : SyncState :=
  match mode with
  | .loc => { mode := .loc, tasks := normalizeList fresh localRaw }
  | .api =>
    match listResult with
    | .ok listPayload =>
      { mode := .api
        tasks := match listPayload with
          | some l => normalizeList fresh l
          | none => [] }
    | .error err =>
      if isNetworkOrServerError err then
        { mode := .loc, tasks := normalizeList fresh localRaw }
      else
        { mode := .api, tasks := [] }

end Hook

/-! Helper lemmas shared by the claim theorems. -/

/-- find? commutes with a map that does not change the predicate value. -/
theorem find?_map_pres {α : Type} (p : α → Bool) (f : α → α)
    (hf : ∀ a, p (f a) = p a) (l : List α) :
    (l.map f).find? p = (l.find? p).map f := by
  induction l with
  | nil => rfl
  | cons a tl ih =>
    cases hpa : p a with
    | true => simp [List.find?_cons, hf, hpa]
    | false => simp [List.find?_cons, hf, hpa, ih]

/-- A map that is the identity on every member is the identity. -/
theorem map_pres_id {α : Type} (f : α → α) (l : List α)
    (h : ∀ a ∈ l, f a = a) : l.map f = l :=
  (List.map_congr_left h).trans l.map_id

/-- A rejected error never passes the network-or-server test of the hook. -/
theorem rejected_not_transient (e : ApiError) (he : e.rejected) :
    Hook.isNetworkOrServerError e = false := by
  obtain ⟨hflag, st, hst, hlt⟩ := he
  simp [Hook.isNetworkOrServerError, hflag, hst]
  omega

/-- withOptimistic with a do-nothing success commit installs the optimistic
list in both modes. -/
theorem withOptimistic_ok_id (s : Hook.SyncState) (f : List Task → List Task) :
    Hook.withOptimistic s f (.ok fun prev => prev) = { s with tasks := f s.tasks } := by
  cases s with
  | mk mode tasks => cases mode <;> rfl

/-- withOptimistic on a failed commit in api mode restores the snapshot and
demotes the mode exactly when the error passes the network-or-server test. -/
theorem withOptimistic_error_api (s : Hook.SyncState) (f : List Task → List Task)
    (e : ApiError) (hmode : s.mode = .api) :
    Hook.withOptimistic s f (.error e) =
      { mode := if Hook.isNetworkOrServerError e then .loc else .api
        tasks := s.tasks } := by
  cases s with
  | mk mode tasks =>
    cases hmode
    rfl

/-! Claim theorems. -/

/-- C3: in remote (api) mode, a mutation whose backend call fails with a
rejected (non-transient) error leaves the canonical task list equal to the
pre-mutation snapshot and keeps the backend mode remote; in particular an add
whose create call is rejected leaves the whole state unchanged, so the
optimistic new task is gone and the mode is still api. -/
theorem c3_rejected_rollback_keeps_remote (s : Hook.SyncState)
    (f : List Task → List Task) (e : ApiError)
    (hmode : s.mode = .api) (he : e.rejected) :
    Hook.withOptimistic s f (.error e) = { mode := .api, tasks := s.tasks } ∧
    ∀ title fresh fresh2, Hook.addTodo s title fresh fresh2 (.error e) = s := by
  obtain ⟨m, ts⟩ := s
  cases hmode
  have hne := rejected_not_transient e he
  refine ⟨by simp [Hook.withOptimistic, hne], ?_⟩
  intro title fresh fresh2
  by_cases ht : jsTrim title = ""
  · simp [Hook.addTodo, ht]
  · simp [Hook.addTodo, ht, Hook.withOptimistic, Except.map, hne]

/-- C4: starting in remote mode, when the initial list call fails with an
error that passes the network-or-server test the mode becomes local and the
canonical list is the normalized storage contents; when it fails with any
other (rejected) error the mode stays remote and the list stays empty. -/
theorem c4_init_transient_falls_back_to_local (e : ApiError)
    (localRaw : List (Option RawTodo)) (fresh : Nat → String) :
    (Hook.isNetworkOrServerError e = true →
      Hook.initTodos .api (.error e) localRaw fresh =
        { mode := .loc, tasks := Hook.normalizeList fresh localRaw }) ∧
    (Hook.isNetworkOrServerError e = false →
      Hook.initTodos .api (.error e) localRaw fresh =
        { mode := .api, tasks := [] }) := by
  constructor <;> intro h <;> simp [Hook.initTodos, h]

/-- C5 counterexample: a response with status 600 is non-2xx and has a status
of at least 500, yet the raised error is not tagged transient, because the
code flags only the 500..599 range; the claim as stated (transient iff status
at least 500 or no status) is therefore false at status 600. -/
theorem c5_counterexample_status_600 :
    Api.requestJson (.resp 600) =
      .error { status := some 600, isNetworkOrServerError := false } ∧
    500 ≤ 600 ∧ ¬ (200 ≤ 600 ∧ 600 ≤ 299) :=
  ⟨rfl, by norm_num, by norm_num⟩

/-- C5 amended: every 2xx response succeeds; every non-2xx response raises an
error carrying that status, tagged transient exactly when the status is in
the 500..599 range; a transport-level failure raises an error with no status
tagged transient; every adapter error is tagged transient iff it has no
status or a status in the 500..599 range; and all four operations share
these semantics of requestJson (update and delete for any non-empty id). -/
theorem c5_error_tagging (st : Nat) (i : String) (r : FetchResult)
    (hi : i ≠ "") :
    ((200 ≤ st ∧ st ≤ 299) → Api.requestJson (.resp st) = .ok ()) ∧
    (¬ (200 ≤ st ∧ st ≤ 299) →
      Api.requestJson (.resp st) =
        .error { status := some st
                 isNetworkOrServerError := decide (500 ≤ st) && decide (st ≤ 599) }) ∧
    Api.requestJson .netFail =
      .error { status := none, isNetworkOrServerError := true } ∧
    (∀ e, Api.requestJson r = .error e →
      (e.isNetworkOrServerError = true ↔
        e.status = none ∨ ∃ n, e.status = some n ∧ 500 ≤ n ∧ n ≤ 599)) ∧
    Api.listTodos r = Api.requestJson r ∧
    Api.createTodo r = Api.requestJson r ∧
    Api.updateTodo i r = Api.requestJson r ∧
    Api.deleteTodo i r = Api.requestJson r := by
  refine ⟨?_, ?_, rfl, ?_, rfl, rfl, by simp [Api.updateTodo, hi], by simp [Api.deleteTodo, hi]⟩
  · intro h
    have hok : Api.respOk st = true := by simp [Api.respOk]; omega
    simp [Api.requestJson, hok]
  · intro h
    have hok : Api.respOk st = false := by
      simp [Api.respOk]
      omega
    simp [Api.requestJson, hok, Api.throwForResponse]
  · intro e he
    cases r with
    | netFail =>
      simp [Api.requestJson] at he
      simp [← he]
    | resp st' =>
      by_cases hok : Api.respOk st' = true
      · simp [Api.requestJson, hok] at he
      · rw [Api.requestJson, if_neg hok] at he
        cases he
        simp [Api.throwForResponse, Bool.and_eq_true, decide_eq_true_eq]

/-- C10: for a missing (empty) identifier the Remote Adapter update and
delete operations yield an error with status 400 and no transient tag no
matter what the network would have answered (the result does not depend on
the fetch outcome, so no request is consulted), that error does not pass the
network-or-server test of the hook, and when it reaches withOptimistic in api
mode the optimistic change is rolled back while the mode stays api. -/
theorem c10_missing_id_rejected_no_demote (r : FetchResult)
    (s : Hook.SyncState) (f : List Task → List Task) (hmode : s.mode = .api) :
    Api.updateTodo "" r =
      .error { status := some 400, isNetworkOrServerError := false } ∧
    Api.deleteTodo "" r =
      .error { status := some 400, isNetworkOrServerError := false } ∧
    Hook.isNetworkOrServerError
      { status := some 400, isNetworkOrServerError := false } = false ∧
    Hook.withOptimistic s f
        (.error { status := some 400, isNetworkOrServerError := false }) =
      { mode := .api, tasks := s.tasks } := by
  have hne : Hook.isNetworkOrServerError
      { status := some 400, isNetworkOrServerError := false } = false := by decide
  refine ⟨rfl, rfl, hne, ?_⟩
  rw [withOptimistic_error_api s f _ hmode, hne]
  rfl

/-- C1: the code breaks the trimmed-title invariant.  normalizeTodo computes
a trimmed title but the trailing spread of the original object overrides it,
so normalizing a stored or server task whose title is " buy milk " installs
that raw title, leading and trailing whitespace included, in the canonical
list; the title is not the trimmed form the claim requires. -/
theorem c1_normalize_keeps_raw_title :
    (Hook.normalizeTodo "f1"
        { rid := some "a", rtitle := some " buy milk ", rcompleted := some false }).title
      = " buy milk " ∧
    noEdgeWhitespace " buy milk " = false ∧
    jsTrim " buy milk " ≠ " buy milk " ∧
    (Hook.normalizeList (fun _ => "f")
        [some { rid := some "a", rtitle := some " buy milk ", rcompleted := some false }]).map
        Task.title = [" buy milk "] :=
  ⟨rfl, by decide, by decide, by decide⟩

/-- C2 counterexample: update with a fields argument that itself contains an
id key does change the id of the matched task: updating task "1" with a
fields object carrying id "2" leaves the canonical list holding id "2". -/
theorem c2_counterexample_update_with_id_field :
    (Hook.updateTodo
        { mode := .loc, tasks := [{ id := "1", title := "a", completed := false }] }
        "1" (some { uid := some "2" }) (.ok ())).tasks
      = [{ id := "2", title := "a", completed := false }] := by decide

/-- Tasks of withOptimistic under a commit whose success continuation does
nothing: the optimistic list or, on rollback, the snapshot. -/
theorem withOptimistic_unit_tasks (s : Hook.SyncState)
    (f : List Task → List Task) (r : Except ApiError Unit) :
    (Hook.withOptimistic s f (r.map fun _ prev => prev)).tasks = f s.tasks ∨
    (Hook.withOptimistic s f (r.map fun _ prev => prev)).tasks = s.tasks := by
  obtain ⟨m, ts⟩ := s
  cases m <;> cases r <;> simp [Hook.withOptimistic, Except.map]

/-- C2 amended: no mutation ever changes the id of an existing task, with
update restricted to fields arguments that carry no id key: update and toggle
leave the id sequence of the canonical list unchanged in every mode and for
every commit outcome, and delete and clearCompleted only remove whole tasks
(the resulting list is a sublist of the original), never altering an id. -/
theorem c2_ids_immutable (s : Hook.SyncState) (i : String) (u : Hook.Updates)
    (r r2 r3 : Except ApiError Unit) (hu : u.uid = none) :
    (Hook.updateTodo s i (some u) r).tasks.map Task.id = s.tasks.map Task.id ∧
    (Hook.toggleTodo s i r2).tasks.map Task.id = s.tasks.map Task.id ∧
    (Hook.deleteTodo s i r3).tasks.Sublist s.tasks ∧
    (Hook.clearCompleted s).tasks.Sublist s.tasks := by
  refine ⟨?_, ?_, ?_, ?_⟩
  · by_cases hi : i = ""
    · simp [Hook.updateTodo, hi]
    · rw [Hook.updateTodo, if_neg hi]
      rcases withOptimistic_unit_tasks s
          (fun prev => prev.map fun t =>
            if t.id = i then
              Hook.applyUpdates { u with utitle := u.utitle.map jsTrim } t
            else t) r with h | h
      · rw [h, List.map_map]
        refine List.map_congr_left fun t ht => ?_
        by_cases htid : t.id = i <;>
          simp [htid, Hook.applyUpdates, hu]
      · rw [h]
  · by_cases hi : i = ""
    · simp [Hook.toggleTodo, hi]
    · rw [Hook.toggleTodo, if_neg hi]
      cases hfind : s.tasks.find? fun t => t.id = i with
      | none => rfl
      | some target =>
        rcases withOptimistic_unit_tasks s
            (fun prev => prev.map fun t =>
              if t.id = i then { t with completed := !target.completed } else t)
            r2 with h | h
        · rw [h, List.map_map]
          refine List.map_congr_left fun t ht => ?_
          by_cases htid : t.id = i <;> simp [htid]
        · rw [h]
  · by_cases hi : i = ""
    · simp [Hook.deleteTodo, hi]
    · rw [Hook.deleteTodo, if_neg hi]
      rcases withOptimistic_unit_tasks s
          (fun prev => prev.filter fun t => !(t.id = i : Bool)) r3 with h | h
      · rw [h]; exact List.filter_sublist s.tasks
      · rw [h]
  · rw [Hook.clearCompleted]
    by_cases h : ((s.tasks.filter fun t => t.completed).map Task.id).isEmpty = true
    · simp [h]
    · simp only [h, if_neg]
      rw [withOptimistic_ok_id]
      exact List.filter_sublist s.tasks

/-- C6: add with a title that trims to empty is a no-op for every mode and
commit outcome; add with a non-empty trimmed title prepends a task whose id
is the locally generated fresh id, whose title is the trimmed title and whose
completed flag is false, both as the final list in local mode and as the
canonical list in api mode when the create answer holds nothing to splice;
and in api mode every successful create leaves the list exactly one longer
than before. -/
theorem c6_add_prepends_or_noop (s : Hook.SyncState) (title fresh fresh2 : String)
    (r : Except ApiError (Option RawTodo)) :
    (jsTrim title = "" → Hook.addTodo s title fresh fresh2 r = s) ∧
    (jsTrim title ≠ "" → s.mode = .loc →
      (Hook.addTodo s title fresh fresh2 r).tasks =
        { id := fresh, title := jsTrim title, completed := false } :: s.tasks) ∧
    (jsTrim title ≠ "" → s.mode = .api →
      (Hook.addTodo s title fresh fresh2 (.ok none)).tasks =
        { id := fresh, title := jsTrim title, completed := false } :: s.tasks) ∧
    (jsTrim title ≠ "" → s.mode = .api → ∀ created,
      (Hook.addTodo s title fresh fresh2 (.ok created)).tasks.length =
        s.tasks.length + 1) := by
  obtain ⟨m, ts⟩ := s
  refine ⟨fun ht => by simp [Hook.addTodo, ht], fun ht hm => ?_, fun ht hm => ?_,
    fun ht hm created => ?_⟩ <;> cases hm
  · simp [Hook.addTodo, ht, Hook.withOptimistic, Hook.normalizeTodo]
  · simp [Hook.addTodo, ht, Hook.withOptimistic, Except.map, Hook.spliceCreated,
      Hook.normalizeTodoOpt, Hook.normalizeTodo]
  · cases created with
    | none =>
      simp [Hook.addTodo, ht, Hook.withOptimistic, Except.map, Hook.spliceCreated,
        Hook.normalizeTodoOpt]
    | some c =>
      simp [Hook.addTodo, ht, Hook.withOptimistic, Except.map, Hook.spliceCreated,
        Hook.normalizeTodoOpt]

/-- clearCompleted always leaves exactly the non-completed tasks, in order,
whatever the mode: when nothing is completed the filter is the identity, and
otherwise the single optimistic step installs the filtered list and the
always-resolved batched commit never rolls it back. -/
theorem clearCompleted_eq (s : Hook.SyncState) :
    Hook.clearCompleted s = { s with tasks := s.tasks.filter fun t => !t.completed } := by
  rw [Hook.clearCompleted]
  by_cases h : ((s.tasks.filter fun t => t.completed).map Task.id).isEmpty = true
  · have h0 : s.tasks.filter (fun t => t.completed) = [] :=
      List.map_eq_nil_iff.mp (List.isEmpty_iff.mp h)
    have h1 : s.tasks.filter (fun t => !t.completed) = s.tasks := by
      rw [List.filter_eq_self]
      intro a ha
      have := List.filter_eq_nil_iff.mp h0 a ha
      simpa using this
    simp [h, h1]
  · rw [if_neg h, withOptimistic_ok_id]

/-- C7: clearCompleted is a no-op when no task is completed; otherwise it
removes exactly the completed tasks in one optimistic step, the surviving
non-completed tasks keep their order, and the result holds regardless of the
per-id delete outcomes because the batched commit never rejects (so no
rollback path exists); the mode is unchanged either way. -/
theorem c7_clearCompleted_filters (s : Hook.SyncState) :
    ((∀ t ∈ s.tasks, t.completed = false) → Hook.clearCompleted s = s) ∧
    (Hook.clearCompleted s).tasks = s.tasks.filter (fun t => !t.completed) ∧
    (Hook.clearCompleted s).mode = s.mode := by
  refine ⟨fun h => ?_, by rw [clearCompleted_eq], by rw [clearCompleted_eq]⟩
  rw [clearCompleted_eq]
  have h1 : s.tasks.filter (fun t => !t.completed) = s.tasks := by
    rw [List.filter_eq_self]
    intro a ha
    simp [h a ha]
  rw [h1]

/-- C8 counterexample: with the search text " " (one space, which is not the
empty string) the derived view keeps a task whose title "a" does not contain
" " as a substring, because the code trims the search text before matching;
the claim, which matches the search text itself and exempts only the empty
search, is therefore false at this input. -/
theorem c8_counterexample_whitespace_search :
    Hook.filterAndSearch [{ id := "1", title := "a", completed := false }] "all" " "
      = [{ id := "1", title := "a", completed := false }] ∧
    Hook.matchesSearchSpec " " { id := "1", title := "a", completed := false } = false ∧
    (" " : String) ≠ "" :=
  ⟨by decide, by decide, by decide⟩

/-- C8 amended: the derived view is the pure filter of the task list keeping
exactly the tasks that satisfy both the completion-filter condition and the
search condition, where the search condition is the case-insensitive
substring match of the trimmed search text against the title, a search text
that trims to empty passing everything; consequently the active view never
holds a completed task and the completed view never holds an active one. -/
theorem c8_view_membership (tasks : List Task) (filter search : String) (t : Task) :
    (t ∈ Hook.filterAndSearch tasks filter search ↔
      t ∈ tasks ∧ Hook.matchesFilter filter t = true ∧
        Hook.matchesSearch (jsToLower (jsTrim search)) t = true) ∧
    (filter = "active" → t ∈ Hook.filterAndSearch tasks filter search →
      t.completed = false) ∧
    (filter = "completed" → t ∈ Hook.filterAndSearch tasks filter search →
      t.completed = true) := by
  have hmem : t ∈ Hook.filterAndSearch tasks filter search ↔
      t ∈ tasks ∧ Hook.matchesFilter filter t = true ∧
        Hook.matchesSearch (jsToLower (jsTrim search)) t = true := by
    simp [Hook.filterAndSearch, List.mem_filter, Bool.and_eq_true]
  refine ⟨hmem, fun hf hin => ?_, fun hf hin => ?_⟩
  · subst hf
    have h2 := (hmem.mp hin).2.1
    simp [Hook.matchesFilter] at h2
    exact h2
  · subst hf
    have h2 := (hmem.mp hin).2.1
    simpa [Hook.matchesFilter] using h2

/-- C9: toggling the same id twice, with both commits succeeding (which also
covers local mode, where the commit is skipped), restores the state exactly:
the matched task gets its original completed flag back and the list and mode
are unchanged.  The canonical list is assumed to have pairwise distinct ids,
the data-model invariant.  Toggling an id no task carries is a no-op for
every commit outcome. -/
theorem c9_toggle_twice_restores (s : Hook.SyncState) (i : String)
    (h : (s.tasks.map Task.id).Nodup) :
    Hook.toggleTodo (Hook.toggleTodo s i (.ok ())) i (.ok ()) = s ∧
    ∀ r, (∀ t ∈ s.tasks, t.id ≠ i) → Hook.toggleTodo s i r = s := by
  obtain ⟨m, ts⟩ := s
  constructor
  · by_cases hi : i = ""
    · simp [Hook.toggleTodo, hi]
    · cases hfind : ts.find? fun t => t.id = i with
      | none => simp [Hook.toggleTodo, hi, hfind]
      | some target =>
        have htid : target.id = i := by
          have := List.find?_some hfind
          simpa using this
        have htmem : target ∈ ts := List.mem_of_find?_eq_some hfind
        have h1 : Hook.toggleTodo ⟨m, ts⟩ i (.ok ()) =
            ⟨m, ts.map fun t =>
              if t.id = i then { t with completed := !target.completed } else t⟩ := by
          rw [Hook.toggleTodo, if_neg hi]
          rw [show ((⟨m, ts⟩ : Hook.SyncState).tasks.find? fun t => t.id = i)
              = some target from hfind]
          exact withOptimistic_ok_id _ _
        have hpres : ∀ t : Task,
            (decide ((if t.id = i then { t with completed := !target.completed }
              else t).id = i)) = decide (t.id = i) := by
          intro t
          by_cases ht : t.id = i <;> simp [ht]
        have hfind2 : ((ts.map fun t =>
              if t.id = i then { t with completed := !target.completed } else t).find?
              fun t => t.id = i)
            = some { target with completed := !target.completed } := by
          rw [find?_map_pres _ _ hpres, hfind]
          simp [htid]
        have h2 : Hook.toggleTodo
            ⟨m, ts.map fun t =>
              if t.id = i then { t with completed := !target.completed } else t⟩
              i (.ok ()) =
            ⟨m, (ts.map fun t =>
                if t.id = i then { t with completed := !target.completed } else t).map
              fun t =>
                if t.id = i then { t with completed := !(!target.completed) } else t⟩ := by
          rw [Hook.toggleTodo, if_neg hi]
          rw [show (((⟨m, ts.map fun t =>
              if t.id = i then { t with completed := !target.completed } else t⟩ :
                Hook.SyncState).tasks.find? fun t => t.id = i))
              = some { target with completed := !target.completed } from hfind2]
          exact withOptimistic_ok_id _ _
        rw [h1, h2, List.map_map]
        have hid : ∀ t ∈ ts,
            ((fun t => if t.id = i then { t with completed := !(!target.completed) }
                else t) ∘
              fun t => if t.id = i then { t with completed := !target.completed }
                else t) t = t := by
          intro t ht
          by_cases htid' : t.id = i
          · have hteq : t = target :=
              List.inj_on_of_nodup_map h ht htmem (by rw [htid', htid])
            subst hteq
            simp [Function.comp, htid', Bool.not_not]
            rw [← htid']
          · simp [Function.comp, htid']
        rw [map_pres_id _ _ hid]
  · intro r hnone
    by_cases hi : i = ""
    · simp [Hook.toggleTodo, hi]
    · have hfind : ts.find? (fun t => t.id = i) = none := by
        rw [List.find?_eq_none]
        intro x hx
        simpa using hnone x hx
      simp [Hook.toggleTodo, hi, hfind]

/-! Witnesses: each instantiates its claim theorem at a concrete input and
discharges the hypotheses there. -/

/-- Witness for C2 amended: a concrete update without an id key leaves the id
sequence unchanged. -/
theorem c2_ids_immutable_witness :
    Hook.Updates.uid { utitle := some " b " } = none ∧
    (Hook.updateTodo { mode := Hook.Mode.api, tasks := [⟨"1", "a", false⟩] } "1"
        (some { utitle := some " b " }) (.ok ())).tasks.map Task.id
      = ([⟨"1", "a", false⟩] : List Task).map Task.id :=
  ⟨rfl,
    (c2_ids_immutable { mode := Hook.Mode.api, tasks := [⟨"1", "a", false⟩] } "1"
      { utitle := some " b " } (.ok ()) (.ok ()) (.ok ()) rfl).1⟩

/-- Witness for C3: a concrete rejected error (status 404) rolls back and
keeps api mode. -/
theorem c3_rejected_rollback_witness :
    Hook.SyncState.mode { mode := Hook.Mode.api, tasks := [⟨"1", "a", false⟩] }
      = Hook.Mode.api ∧
    ApiError.rejected { status := some 404 } ∧
    Hook.withOptimistic { mode := Hook.Mode.api, tasks := [⟨"1", "a", false⟩] }
        (fun prev => prev) (.error { status := some 404 })
      = { mode := Hook.Mode.api, tasks := [⟨"1", "a", false⟩] } :=
  ⟨rfl, ⟨rfl, 404, rfl, by omega⟩,
    (c3_rejected_rollback_keeps_remote
      { mode := Hook.Mode.api, tasks := [⟨"1", "a", false⟩] }
      (fun prev => prev) { status := some 404 } rfl ⟨rfl, 404, rfl, by omega⟩).1⟩

/-- Witness for C4: a concrete transient failure of the initial list call
demotes to local mode and installs the normalized storage contents. -/
theorem c4_init_transient_witness :
    Hook.isNetworkOrServerError { status := none, isNetworkOrServerError := true }
      = true ∧
    Hook.initTodos .api (.error { status := none, isNetworkOrServerError := true })
        [some { rid := some "9", rtitle := some "z" }] (fun _ => "g")
      = { mode := .loc
          tasks := Hook.normalizeList (fun _ => "g")
            [some { rid := some "9", rtitle := some "z" }] } :=
  ⟨by decide,
    (c4_init_transient_falls_back_to_local
      { status := none, isNetworkOrServerError := true }
      [some { rid := some "9", rtitle := some "z" }] (fun _ => "g")).1 (by decide)⟩

/-- Witness for C5 amended: status 404 is non-2xx, raises with its status and
without the transient tag, and the update operation with a non-empty id has
the same semantics. -/
theorem c5_error_tagging_witness :
    ("x" : String) ≠ "" ∧
    ¬ (200 ≤ 404 ∧ (404 : Nat) ≤ 299) ∧
    Api.requestJson (.resp 404) =
      .error { status := some 404
               isNetworkOrServerError := decide (500 ≤ 404) && decide ((404 : Nat) ≤ 599) } ∧
    Api.updateTodo "x" (.resp 404) = Api.requestJson (.resp 404) :=
  ⟨by decide, by norm_num,
    (c5_error_tagging 404 "x" (.resp 404) (by decide)).2.1 (by norm_num),
    (c5_error_tagging 404 "x" (.resp 404) (by decide)).2.2.2.2.2.2.1⟩

/-- Witness for C6: a concrete title with surrounding whitespace is trimmed,
given the fresh id, marked not completed and prepended in local mode. -/
theorem c6_add_witness :
    jsTrim "  hi  " ≠ "" ∧
    (Hook.addTodo { mode := Hook.Mode.loc, tasks := [] } "  hi  " "g1" "g2"
        (.ok none)).tasks
      = [{ id := "g1", title := jsTrim "  hi  ", completed := false }] :=
  ⟨by decide,
    (c6_add_prepends_or_noop { mode := Hook.Mode.loc, tasks := [] } "  hi  " "g1" "g2"
      (.ok none)).2.1 (by decide) rfl⟩

/-- Witness for C7: with no completed task, clearCompleted is the identity on
a concrete state. -/
theorem c7_clearCompleted_witness :
    (∀ t ∈ ([⟨"2", "b", false⟩] : List Task), t.completed = false) ∧
    Hook.clearCompleted { mode := Hook.Mode.api, tasks := [⟨"2", "b", false⟩] }
      = { mode := Hook.Mode.api, tasks := [⟨"2", "b", false⟩] } :=
  ⟨by decide, (c7_clearCompleted_filters
    { mode := Hook.Mode.api, tasks := [⟨"2", "b", false⟩] }).1 (by decide)⟩

/-- Witness for C8 amended: a concrete active view holds an active task, and
the theorem certifies it is not completed. -/
theorem c8_view_witness :
    (⟨"1", "a", false⟩ : Task) ∈
      Hook.filterAndSearch [⟨"1", "a", false⟩, ⟨"2", "b", true⟩] "active" "" ∧
    Task.completed ⟨"1", "a", false⟩ = false :=
  ⟨by decide,
    (c8_view_membership [⟨"1", "a", false⟩, ⟨"2", "b", true⟩] "active" ""
      ⟨"1", "a", false⟩).2.1 rfl (by decide)⟩

/-- Witness for C9: a concrete double toggle on a list with distinct ids
restores the state. -/
theorem c9_toggle_twice_witness :
    ((([⟨"1", "a", false⟩, ⟨"2", "b", true⟩] : List Task)).map Task.id).Nodup ∧
    Hook.toggleTodo (Hook.toggleTodo
        { mode := Hook.Mode.api, tasks := [⟨"1", "a", false⟩, ⟨"2", "b", true⟩] }
        "1" (.ok ())) "1" (.ok ())
      = { mode := Hook.Mode.api, tasks := [⟨"1", "a", false⟩, ⟨"2", "b", true⟩] } :=
  ⟨by decide,
    (c9_toggle_twice_restores
      { mode := Hook.Mode.api, tasks := [⟨"1", "a", false⟩, ⟨"2", "b", true⟩] }
      "1" (by decide)).1⟩

/-- Witness for C10: the empty-id update error on a concrete fetch outcome,
and the rollback without demotion on a concrete api-mode state. -/
theorem c10_missing_id_witness :
    Hook.SyncState.mode { mode := Hook.Mode.api, tasks := [⟨"1", "a", false⟩] }
      = Hook.Mode.api ∧
    Api.updateTodo "" (.resp 204) =
      .error { status := some 400, isNetworkOrServerError := false } ∧
    Hook.withOptimistic { mode := Hook.Mode.api, tasks := [⟨"1", "a", false⟩] }
        (fun prev => ⟨"x", "y", false⟩ :: prev)
        (.error { status := some 400, isNetworkOrServerError := false })
      = { mode := Hook.Mode.api, tasks := [⟨"1", "a", false⟩] } :=
  ⟨rfl,
    (c10_missing_id_rejected_no_demote (.resp 204)
      { mode := Hook.Mode.api, tasks := [⟨"1", "a", false⟩] }
      (fun prev => ⟨"x", "y", false⟩ :: prev) rfl).1,
    (c10_missing_id_rejected_no_demote (.resp 204)
      { mode := Hook.Mode.api, tasks := [⟨"1", "a", false⟩] }
      (fun prev => ⟨"x", "y", false⟩ :: prev) rfl).2.2.2⟩

end Todos
